import Mathlib

/-!
# Verification of the jsolar frame pipeline

A shallow embedding of `jsolar.py`: the frame-reader loop (`data_received`),
the config sensor filter (`parse_config`), the schema-driven packet decoder
(`ParseVbusPacket.__init__`) and the two HTTP publishers (`json_handler`,
`prometheus_handler`).

Bytes are `Nat` (values < 256 in practice), byte buffers are `List Nat`.
Python dicts (insertion ordered) are association lists with an
insert-or-overwrite-in-place operation `dictSet`. The pyvbus field-decoding
primitives (`GetRawValue`, `GetTemperatureValue`, `GetBitValue`,
`GetTimeValue`) are an external library; they are modelled from the spec's
description of them (signed little-endian integer, scaled temperature,
single bit, little-endian time integer). Python floats are modelled as
exact rationals.
-/

/-- One sensor section of the configuration, after `configobj` validation.
Field names and defaults follow the `configspec` in `parse_config`
(including the source's `gague` default for `metrics`). -/
structure SensorDef where
  description : String := "description"
  offset : Nat := 0
  size : Nat := 1
  factor : Rat := mkRat 1 10
  position : Nat := 0
  enabled : Bool := false
  type : String := "raw"
  metrics : String := "gague"
deriving DecidableEq, Repr

/-- A value stored in the parsed datagram dict: Python strings, ints,
floats (as exact rationals), bools, the pyvbus time value (carried as its
little-endian integer) and `None`. -/
inductive Value where
  | vstr (s : String)
  | vint (n : Int)
  | vrat (q : Rat)
  | vbool (b : Bool)
  | vtime (n : Int)
  | vnone
deriving DecidableEq, Repr

/-- A Python dict with string keys: an insertion-ordered association list. -/
abbrev PyDict := List (String × Value)

/-- Python `d[k] = v`: overwrite in place if `k` is present (keeping its
position), otherwise append a new entry. -/
def dictSet (d : PyDict) (k : String) (v : Value) : PyDict :=
  if d.any (fun p => p.1 == k) then
    d.map (fun p => if p.1 == k then (k, v) else p)
  else
    d ++ [(k, v)]

/-- Python `d[k]`, as an `Option` (`none` models a `KeyError`). -/
def dictGet (d : PyDict) (k : String) : Option Value :=
  (d.find? (fun p => p.1 == k)).map (fun p => p.2)

/-- Little-endian unsigned value of a byte list. -/
def leNat (bytes : List Nat) : Nat :=
  bytes.foldr (fun b acc => b + 256 * acc) 0

/-- Modelled from the spec: pyvbus `VBUSPacket.GetRawValue` interprets
`size` bytes starting at `offset` as a signed little-endian integer. -/
def GetRawValue (buf : List Nat) (offset size : Nat) : Int :=
  let n := leNat ((buf.drop offset).take size)
  if 2 ^ (8 * size - 1) ≤ n then (n : Int) - 2 ^ (8 * size) else (n : Int)

/-- Modelled from the spec: pyvbus `VBUSPacket.GetTemperatureValue` is the
raw little-endian integer scaled by `factor`. -/
def GetTemperatureValue (buf : List Nat) (offset size : Nat) (factor : Rat) : Rat :=
  (GetRawValue buf offset size : Rat) * factor

/-- Modelled from the spec: pyvbus `VBUSPacket.GetBitValue` extracts the
bit at `position` of the byte at `offset`. -/
def GetBitValue (buf : List Nat) (offset position : Nat) : Bool :=
  (buf.getD offset 0) / 2 ^ position % 2 == 1

/-- Modelled from the spec: pyvbus `VBUSPacket.GetTimeValue` interprets
`size` bytes at `offset` as a little-endian time integer. -/
def GetTimeValue (buf : List Nat) (offset size : Nat) : Int :=
  (leNat ((buf.drop offset).take size) : Int)

/-- The `kind` dispatch in `ParseVbusPacket.__init__`: `raw`,
`temperature`, `bit`, `time`, and the `else` arm falling back to
`GetRawValue`. -/
def decodeSensor (buf : List Nat) (sd : SensorDef) : Value :=
  if sd.type = "raw" then .vint (GetRawValue buf sd.offset sd.size)
  else if sd.type = "temperature" then
    .vrat (GetTemperatureValue buf sd.offset sd.size sd.factor)
  else if sd.type = "bit" then .vbool (GetBitValue buf sd.offset sd.position)
  else if sd.type = "time" then .vtime (GetTimeValue buf sd.offset sd.size)
  else .vint (GetRawValue buf sd.offset sd.size)

/-- The active sensor schema: section name plus definition, in
configuration order. -/
abbrev Schema := List (String × SensorDef)

/-- `ParseVbusPacket.__init__`: builds the parsed datagram dict with
`device`, `timestamp` and one assignment per configured sensor. The
timestamp string (`datetime.now()...isoformat()`) is passed in as `ts`. -/
def parseVbusPacket (buf : List Nat) (schema : Schema) (device ts : String) : PyDict :=
  schema.foldl (fun d p => dictSet d p.1 (decodeSensor buf p.2))
    (dictSet (dictSet [] "device" (.vstr device)) "timestamp" (.vstr ts))

/-- `parse_config`'s sensor filter: iterate over the sensor sections and
pop every one whose `enabled` flag is false. (`configobj` sections iterate
over a fresh key list, so popping during iteration removes exactly the
disabled sensors.) -/
def parse_config_sensors (raw : Schema) : Schema :=
  raw.filter (fun p => p.2.enabled)

/-- The candidate frame buffer built by one `data_received` loop
iteration from the bytes returned by `readuntil(b'\xaa')`:
`buffer = bytearray(b'\xaa'); buffer.extend(bytesRead);
buffer = buffer[0:len(buffer)-1]`. -/
def candidateOf (bytesRead : List Nat) : List Nat :=
  let b0 := 0xAA :: bytesRead
  b0.take (b0.length - 1)

/-- Outcome of one `data_received` loop iteration. -/
inductive StepResult where
  /-- Evaluating `buffer[5]` raised `IndexError`; the reader coroutine
  dies on this unhandled exception. -/
  | crash
  /-- The guard was false; the candidate is dropped and the loop
  continues. -/
  | discarded
  /-- The guard was true; `ParseVbusPacket` is invoked on `buf`. -/
  | decoded (buf : List Nat)
deriving DecidableEq, Repr

/-- One iteration of the `data_received` loop: build the candidate, then
evaluate `if (len(buffer) >= 5 and buffer[5] == 0x10)`. Python evaluates
`buffer[5]` only when the length conjunct holds, and raises `IndexError`
when index 5 is out of range. -/
def data_received_step (bytesRead : List Nat) : StepResult :=
  if 5 ≤ (candidateOf bytesRead).length then
    match (candidateOf bytesRead)[5]? with
    | none => .crash
    | some b => if b = 0x10 then .decoded (candidateOf bytesRead) else .discarded
  else .discarded

/-- The Latest-Reading Store (`parsed_datagram`) after one loop
iteration: overwritten on a decoded frame, otherwise unchanged. -/
def storeAfter (old : Option PyDict) (bytesRead : List Nat) (schema : Schema)
    (device ts : String) : Option PyDict :=
  match data_received_step bytesRead with
  | .decoded buf => some (parseVbusPacket buf schema device ts)
  | _ => old

/-- The list of Latest-Reading Store writes performed by one loop
iteration. -/
def storeWrites (bytesRead : List Nat) (schema : Schema) (device ts : String) :
    List PyDict :=
  match data_received_step bytesRead with
  | .decoded buf => [parseVbusPacket buf schema device ts]
  | _ => []

/-- Smallest `k` with `10 ^ k` a multiple of `d` (searched up to 39);
every denominator of a rational that came from a Python float has one. -/
def pow10Exp (d : Nat) : Option Nat :=
  (List.range 40).find? (fun k => 10 ^ k % d == 0)

/-- Decimal digits of `n / 10 ^ k`, with exactly `k` fractional digits. -/
def natDecimalShift (n k : Nat) : String :=
  let ds := (toString n).data
  let ds := if ds.length < k + 1 then List.replicate (k + 1 - ds.length) '0' ++ ds else ds
  String.mk (ds.take (ds.length - k)) ++ "." ++ String.mk (ds.drop (ds.length - k))

/-- Python `str` on a float, modelled on exact rationals: the shortest
decimal expansion (Python prints `45.0` for integral floats). -/
def renderRat (q : Rat) : String :=
  let sign := if q.num < 0 then "-" else ""
  match pow10Exp q.den with
  | some 0 => sign ++ toString q.num.natAbs ++ ".0"
  | some k => sign ++ natDecimalShift (q.num.natAbs * (10 ^ k / q.den)) k
  | none => sign ++ toString q.num.natAbs ++ "/" ++ toString q.den

/-- Python `str` on a datagram value (used by `prometheus_handler`'s
`str(parsed_datagram[metric])`). -/
def pyStr : Value → String
  | .vstr s => s
  | .vint n => toString n
  | .vrat q => renderRat q
  | .vbool b => if b then "True" else "False"
  | .vtime n => toString n
  | .vnone => "None"

/-- JSON rendering of one value (`json.dumps`; string escaping is not
modelled). -/
def jsonValue : Value → String
  | .vstr s => "\"" ++ s ++ "\""
  | .vint n => toString n
  | .vrat q => renderRat q
  | .vbool b => if b then "true" else "false"
  | .vtime n => toString n
  | .vnone => "null"

/-- `json.dumps(parsed_datagram, indent=4)`: the body returned by
`json_handler`. -/
def jsonBody (r : PyDict) : String :=
  "\x7b\n" ++ String.intercalate ",\n"
    (r.map (fun p => "    \"" ++ p.1 ++ "\": " ++ jsonValue p.2)) ++ "\n\x7d"

/-- One iteration of the `prometheus_handler` response-building loop:
entries named `device` or `timestamp` are skipped, any other entry is
looked up in `config['sensors']` (a missing key raises `KeyError`,
modelled as `none`) and its HELP/TYPE/value block is appended to the
response accumulated so far. -/
def prometheusStep (schema : Schema) (acc : Option String) (p : String × Value) :
    Option String :=
  match acc with
  | none => none
  | some response =>
    if p.1 = "device" ∨ p.1 = "timestamp" then some response
    else
      match schema.find? (fun q => q.1 == p.1) with
      | none => none
      | some q =>
        some (response ++ "# HELP " ++ p.1 ++ " " ++ q.2.description ++ "\n" ++
          "# TYPE " ++ p.1 ++ " " ++ q.2.metrics ++ "\n" ++
          p.1 ++ " " ++ pyStr p.2 ++ "\n")

/-- The `prometheus_handler` response body: the loop over the datagram
entries starting from the empty response. -/
def prometheusBody (schema : Schema) (r : PyDict) : Option String :=
  r.foldl (prometheusStep schema) (some "")

/-- The three-line exposition block the spec prescribes for one Reading
entry: `# HELP name description`, `# TYPE name metricKind`,
`name value` (and no block for the fixed `device`/`timestamp` entries;
`none` when the sensor is missing from the schema). -/
def metricBlock (schema : Schema) (p : String × Value) : Option String :=
  if p.1 = "device" ∨ p.1 = "timestamp" then none
  else
    (schema.find? (fun q => q.1 == p.1)).map (fun q =>
      "# HELP " ++ p.1 ++ " " ++ q.2.description ++ "\n" ++
      "# TYPE " ++ p.1 ++ " " ++ q.2.metrics ++ "\n" ++
      p.1 ++ " " ++ pyStr p.2 ++ "\n")

/-- Replace the value stored under `timestamp` by `vnone`, keeping
everything else: two datagrams are equal after `maskTs` exactly when they
agree except for the timestamp value. -/
def maskTs (d : PyDict) : PyDict :=
  d.map (fun p => if p.1 = "timestamp" then (p.1, Value.vnone) else p)

/-- Outcome of an HTTP request as seen by the client. -/
inductive HttpOutcome where
  /-- `web.HTTPServiceUnavailable` (503), raised when
  `parsed_datagram is None`. -/
  | serviceUnavailable
  /-- A 200 response with the given body. -/
  | ok (body : String)
  /-- An unhandled exception in the handler (aiohttp turns it into a
  500). -/
  | serverError
deriving DecidableEq, Repr

/-- `json_handler`: 503 when no datagram has been parsed yet, otherwise a
200 response with the JSON rendering. -/
def json_handler (store : Option PyDict) : HttpOutcome :=
  match store with
  | none => .serviceUnavailable
  | some r => .ok (jsonBody r)

/-- `prometheus_handler`: 503 when no datagram has been parsed yet,
otherwise the metrics text (or a 500 if a sensor lookup raises
`KeyError`). -/
def prometheus_handler (schema : Schema) (store : Option PyDict) : HttpOutcome :=
  match store with
  | none => .serviceUnavailable
  | some r =>
    match prometheusBody schema r with
    | none => .serverError
    | some body => .ok body

/-! ## Helper lemmas -/

/-- For a nonempty `readuntil` result the candidate buffer is the
delimiter followed by the read bytes minus their last byte. -/
lemma candidateOf_eq (bytesRead : List Nat) (hne : bytesRead ≠ []) :
    candidateOf bytesRead = 0xAA :: bytesRead.dropLast := by
  unfold candidateOf
  simp only [List.length_cons, Nat.add_sub_cancel]
  cases bytesRead with
  | nil => exact absurd rfl hne
  | cons a l =>
    simp [List.dropLast_eq_take, List.take_cons]

lemma candidateOf_length (bytesRead : List Nat) (hne : bytesRead ≠ []) :
    (candidateOf bytesRead).length = bytesRead.length := by
  rw [candidateOf_eq bytesRead hne]
  simp [List.length_dropLast]
  cases bytesRead with
  | nil => exact absurd rfl hne
  | cons a l => simp

/-- The two fixed entries every parsed datagram starts from. -/
lemma parse_base (device ts : String) :
    dictSet (dictSet [] "device" (Value.vstr device)) "timestamp" (Value.vstr ts)
      = [("device", Value.vstr device), ("timestamp", Value.vstr ts)] := by
  simp [dictSet]

/-- Assigning a key absent from the dict appends the entry. -/
lemma dictSet_fresh (d : PyDict) (k : String) (v : Value)
    (h : ∀ p ∈ d, p.1 ≠ k) : dictSet d k v = d ++ [(k, v)] := by
  have hc : d.any (fun p => p.1 == k) = false := by
    rw [List.any_eq_false]
    intro p hp
    simpa using h p hp
  simp [dictSet, hc]

/-- Folding assignments of pairwise-distinct keys, all fresh for the
accumulator, appends one entry per key in order. -/
lemma foldl_dictSet_fresh (buf : List Nat) (schema : Schema) :
    ∀ d : PyDict,
      (∀ q ∈ schema, ∀ p ∈ d, p.1 ≠ q.1) →
      (schema.map Prod.fst).Nodup →
      schema.foldl (fun d p => dictSet d p.1 (decodeSensor buf p.2)) d
        = d ++ schema.map (fun p => (p.1, decodeSensor buf p.2)) := by
  induction schema with
  | nil =>
    intro d _ _
    simp
  | cons q rest ih =>
    intro d hfresh hnodup
    simp only [List.map_cons, List.nodup_cons] at hnodup
    simp only [List.foldl_cons, List.map_cons]
    rw [dictSet_fresh d q.1 _ (fun p hp => hfresh q (List.mem_cons_self q rest) p hp)]
    rw [ih (d ++ [(q.1, decodeSensor buf q.2)]) ?_ hnodup.2]
    · simp
    · intro r hr p hp
      rcases List.mem_append.mp hp with hd | hsing
      · exact hfresh r (List.mem_cons_of_mem q hr) p hd
      · have hps : p = (q.1, decodeSensor buf q.2) := by simpa using hsing
        subst hps
        intro he
        apply hnodup.1
        have : r.1 ∈ rest.map Prod.fst := List.mem_map_of_mem Prod.fst hr
        rwa [← he] at this

/-- The keys after an assignment are the old keys plus possibly the
assigned key. -/
lemma dictSet_keys_mem (d : PyDict) (k : String) (v : Value) :
    ∀ x ∈ (dictSet d k v).map Prod.fst, x ∈ d.map Prod.fst ∨ x = k := by
  intro x hx
  unfold dictSet at hx
  split at hx
  · rw [List.map_map] at hx
    obtain ⟨p, hp, he⟩ := List.mem_map.mp hx
    by_cases hpk : p.1 = k
    · right
      rw [← he]
      simp [Function.comp, hpk]
    · left
      refine List.mem_map.mpr ⟨p, hp, ?_⟩
      rw [← he]
      simp [Function.comp, hpk]
  · rw [List.map_append] at hx
    rcases List.mem_append.mp hx with h | h
    · exact Or.inl h
    · right
      simpa using h

/-- Keys of the sensor-assignment fold come from the accumulator or from
the schema. -/
lemma foldl_dictSet_keys (buf : List Nat) (schema : Schema) :
    ∀ (d : PyDict) (k : String),
      k ∈ (schema.foldl (fun d p => dictSet d p.1 (decodeSensor buf p.2)) d).map Prod.fst →
      k ∈ d.map Prod.fst ∨ k ∈ schema.map Prod.fst := by
  induction schema with
  | nil =>
    intro d k h
    exact Or.inl (by simpa using h)
  | cons q rest ih =>
    intro d k h
    simp only [List.foldl_cons] at h
    rcases ih (dictSet d q.1 (decodeSensor buf q.2)) k h with h' | h'
    · rcases dictSet_keys_mem d q.1 _ k h' with h'' | h''
      · exact Or.inl h''
      · exact Or.inr (by simp [h''])
    · exact Or.inr (by simp [h'])

/-- Every key of a parsed datagram is `device`, `timestamp`, or a schema
sensor name. -/
lemma parseVbusPacket_keys (buf : List Nat) (schema : Schema) (device ts : String) :
    ∀ k ∈ (parseVbusPacket buf schema device ts).map Prod.fst,
      k = "device" ∨ k = "timestamp" ∨ k ∈ schema.map Prod.fst := by
  intro k hk
  unfold parseVbusPacket at hk
  rcases foldl_dictSet_keys buf schema _ k hk with h | h
  · rw [parse_base] at h
    simp at h
    tauto
  · exact Or.inr (Or.inr h)

/-- `maskTs` keeps the key sequence. -/
lemma maskTs_keys (d : PyDict) : (maskTs d).map Prod.fst = d.map Prod.fst := by
  unfold maskTs
  rw [List.map_map]
  have hcomp : (Prod.fst ∘ fun p : String × Value =>
      if p.1 = "timestamp" then (p.1, Value.vnone) else p) = Prod.fst := by
    funext p
    by_cases h : p.1 = "timestamp" <;> simp [h]
  rw [hcomp]

/-- `maskTs` keeps lookups at every key other than `timestamp`. -/
lemma maskTs_get (d : PyDict) (k : String) (hk : k ≠ "timestamp") :
    dictGet (maskTs d) k = dictGet d k := by
  induction d with
  | nil => rfl
  | cons p rest ih =>
    have hmask : maskTs (p :: rest)
        = (if p.1 = "timestamp" then (p.1, Value.vnone) else p) :: maskTs rest := by
      simp [maskTs]
    rw [hmask]
    by_cases h : p.1 = "timestamp"
    · have hpk : (p.1 == k) = false := by
        rw [beq_eq_false_iff_ne, h]
        exact Ne.symm hk
      rw [if_pos h]
      unfold dictGet
      rw [List.find?_cons, List.find?_cons]
      dsimp only
      rw [hpk]
      exact ih
    · rw [if_neg h]
      unfold dictGet
      rw [List.find?_cons, List.find?_cons]
      cases hpk : (p.1 == k) with
      | true => rfl
      | false => exact ih

/-- `maskTs` commutes with an assignment, masking the assigned value when
and only when the key is `timestamp`. -/
lemma maskTs_dictSet (d : PyDict) (k : String) (v : Value) :
    maskTs (dictSet d k v)
      = dictSet (maskTs d) k (if k = "timestamp" then Value.vnone else v) := by
  have hfst : ∀ p : String × Value,
      (if p.1 = "timestamp" then (p.1, Value.vnone) else p).1 = p.1 := by
    intro p
    by_cases h : p.1 = "timestamp" <;> simp [h]
  have hany : (maskTs d).any (fun p => p.1 == k) = d.any (fun p => p.1 == k) := by
    unfold maskTs
    rw [List.any_map]
    congr 1
    funext p
    simp [Function.comp, hfst p]
  unfold dictSet
  rw [hany]
  split
  · unfold maskTs
    rw [List.map_map, List.map_map]
    congr 1
    funext p
    simp only [Function.comp]
    by_cases hpk : p.1 = k
    · by_cases ht : k = "timestamp" <;>
        simp [hpk, ht]
    · have hbk : (p.1 == k) = false := beq_eq_false_iff_ne.mpr hpk
      simp [hbk, hfst p]
  · unfold maskTs
    rw [List.map_append]
    congr 1
    by_cases ht : k = "timestamp" <;> simp [ht]

/-- Folding the same sensor assignments over accumulators that agree up
to the timestamp value keeps the agreement. -/
lemma maskTs_foldl (buf : List Nat) (schema : Schema) :
    ∀ d1 d2 : PyDict, maskTs d1 = maskTs d2 →
      maskTs (schema.foldl (fun d p => dictSet d p.1 (decodeSensor buf p.2)) d1)
        = maskTs (schema.foldl (fun d p => dictSet d p.1 (decodeSensor buf p.2)) d2) := by
  induction schema with
  | nil =>
    intro d1 d2 h
    exact h
  | cons q rest ih =>
    intro d1 d2 h
    simp only [List.foldl_cons]
    apply ih
    rw [maskTs_dictSet, maskTs_dictSet, h]

/-! ## Claims about the frame reader -/

/-- C1 (code bug): the claim says every candidate shorter than 6 bytes is
discarded without invoking the decoder and without error. The guard
`len(buffer) >= 5 and buffer[5] == 0x10` discards candidates of length at
most 4, but on a candidate of length exactly 5 (readuntil returning four
payload bytes plus the delimiter) the length conjunct holds and Python
evaluates `buffer[5]`, which is out of range and raises `IndexError`,
killing the reader coroutine. -/
theorem short_candidate_no_silent_discard :
    data_received_step [1, 2, 3, 4, 0xAA] = .crash ∧
    data_received_step [1, 2, 3, 0xAA] = .discarded ∧
    data_received_step [0xAA] = .discarded := by
  decide

/-- C3: the candidate frame built from one `readuntil(b'\xaa')` result is
`0xAA` followed by the bytes read with the trailing delimiter removed;
appending the delimiter back reconstitutes `[0xAA] ++ bytesRead`, so the
trailing delimiter is not part of the candidate. -/
theorem candidate_reconstitution (bytesRead : List Nat)
    (h : bytesRead.getLast? = some 0xAA) :
    candidateOf bytesRead = 0xAA :: bytesRead.dropLast ∧
    candidateOf bytesRead ++ [0xAA] = 0xAA :: bytesRead := by
  have hne : bytesRead ≠ [] := by
    intro he
    subst he
    simp at h
  refine ⟨candidateOf_eq bytesRead hne, ?_⟩
  rw [candidateOf_eq bytesRead hne]
  have hl : bytesRead.getLast hne = 0xAA := by
    rw [List.getLast?_eq_getLast bytesRead hne] at h
    exact Option.some_injective _ h
  rw [List.cons_append, ← hl, List.dropLast_append_getLast hne]

/-- Witness for C3 at `bytesRead = [1, 2, 0xAA]`. -/
theorem candidate_reconstitution_witness :
    candidateOf [1, 2, 0xAA] = [0xAA, 1, 2] ∧
    candidateOf [1, 2, 0xAA] ++ [0xAA] = [0xAA, 1, 2, 0xAA] := by
  have h := candidate_reconstitution [1, 2, 0xAA] (by decide)
  exact ⟨h.1.trans (by decide), h.2.trans (by decide)⟩

/-- C10: whenever the loop invokes the decoder, the buffer it passes
starts with the delimiter `0xAA`, has `0x10` at index 5, and hence has
length at least 6. -/
theorem decoded_buffer_shape (bytesRead buf : List Nat)
    (h : data_received_step bytesRead = .decoded buf) :
    buf[0]? = some 0xAA ∧ buf[5]? = some 0x10 ∧ 6 ≤ buf.length := by
  unfold data_received_step at h
  split at h
  · split at h
    · exact absurd h (by simp)
    · next b hg =>
      split at h
      · next hb =>
        have hbuf : buf = candidateOf bytesRead := by
          cases h
          rfl
        subst hbuf
        subst hb
        have hne : bytesRead ≠ [] := by
          intro he
          subst he
          simp [candidateOf] at hg
        have hlt : 5 < (candidateOf bytesRead).length :=
          (List.getElem?_eq_some.mp hg).1
        refine ⟨?_, hg, by omega⟩
        rw [candidateOf_eq bytesRead hne]
        simp
      · exact absurd h (by simp)
  · exact absurd h (by simp)

/-- Witness for C10 at `bytesRead = [0, 0, 0, 0, 0x10, 9, 0xAA]`. -/
theorem decoded_buffer_shape_witness :
    ([0xAA, 0, 0, 0, 0, 0x10, 9] : List Nat)[0]? = some 0xAA ∧
    ([0xAA, 0, 0, 0, 0, 0x10, 9] : List Nat)[5]? = some 0x10 ∧
    6 ≤ ([0xAA, 0, 0, 0, 0, 0x10, 9] : List Nat).length :=
  decoded_buffer_shape [0, 0, 0, 0, 0x10, 9, 0xAA] [0xAA, 0, 0, 0, 0, 0x10, 9]
    (by decide)

/-- C2: on a candidate of length at least 6, the loop discards it without
invoking the decoder when byte 5 differs from `0x10`, and on byte 5 equal
to `0x10` it invokes the decoder on the candidate and performs exactly
one store write, overwriting the Latest-Reading Store with the decode
result. -/
theorem version_filter_and_store (bytesRead : List Nat) (old : Option PyDict)
    (schema : Schema) (device ts : String) (h6 : 6 ≤ bytesRead.length) :
    ((0xAA :: bytesRead.dropLast)[5]? ≠ some 0x10 →
      data_received_step bytesRead = .discarded ∧
      storeAfter old bytesRead schema device ts = old ∧
      storeWrites bytesRead schema device ts = []) ∧
    ((0xAA :: bytesRead.dropLast)[5]? = some 0x10 →
      data_received_step bytesRead = .decoded (0xAA :: bytesRead.dropLast) ∧
      storeAfter old bytesRead schema device ts
        = some (parseVbusPacket (0xAA :: bytesRead.dropLast) schema device ts) ∧
      storeWrites bytesRead schema device ts
        = [parseVbusPacket (0xAA :: bytesRead.dropLast) schema device ts]) := by
  have hne : bytesRead ≠ [] := by
    intro he
    subst he
    simp at h6
  have hc := candidateOf_eq bytesRead hne
  have hlen := candidateOf_length bytesRead hne
  have h5 : 5 ≤ (candidateOf bytesRead).length := by omega
  have hlt : 5 < (candidateOf bytesRead).length := by omega
  obtain ⟨b, hb⟩ : ∃ b, (candidateOf bytesRead)[5]? = some b :=
    ⟨_, List.getElem?_eq_getElem hlt⟩
  constructor
  · intro h10
    have hbne : b ≠ 0x10 := by
      intro he
      subst he
      rw [hc] at hb
      exact h10 hb
    have hstep : data_received_step bytesRead = .discarded := by
      unfold data_received_step
      rw [if_pos h5, hb]
      exact if_neg hbne
    exact ⟨hstep, by simp [storeAfter, hstep], by simp [storeWrites, hstep]⟩
  · intro h10
    have hbeq : b = 0x10 := by
      rw [hc] at hb
      rw [hb] at h10
      exact Option.some_injective _ h10
    have hstep : data_received_step bytesRead = .decoded (candidateOf bytesRead) := by
      unfold data_received_step
      rw [if_pos h5, hb]
      exact if_pos hbeq
    rw [hc] at hstep
    exact ⟨hstep, by simp [storeAfter, hstep], by simp [storeWrites, hstep]⟩

/-- Witness for C2: a wrong-version frame is discarded, a version-`0x10`
frame is decoded and written to the store. -/
theorem version_filter_and_store_witness :
    data_received_step [0, 0, 0, 0, 0x11, 9, 0xAA] = .discarded ∧
    data_received_step [0, 0, 0, 0, 0x10, 9, 0xAA]
      = .decoded [0xAA, 0, 0, 0, 0, 0x10, 9] ∧
    storeWrites [0, 0, 0, 0, 0x10, 9, 0xAA] [] "solar" "ts"
      = [parseVbusPacket [0xAA, 0, 0, 0, 0, 0x10, 9] [] "solar" "ts"] := by
  refine ⟨?_, ?_, ?_⟩
  · exact ((version_filter_and_store [0, 0, 0, 0, 0x11, 9, 0xAA] none [] "solar" "ts"
      (by decide)).1 (by decide)).1
  · exact ((version_filter_and_store [0, 0, 0, 0, 0x10, 9, 0xAA] none [] "solar" "ts"
      (by decide)).2 (by decide)).1.trans (by decide)
  · exact (((version_filter_and_store [0, 0, 0, 0, 0x10, 9, 0xAA] none [] "solar" "ts"
      (by decide)).2 (by decide)).2.2).trans (by decide)

/-! ## Claims about the decoder -/

/-- C4: a sensor whose kind is none of `raw`, `temperature`, `bit`,
`time` decodes to exactly the value a `raw` sensor with the same offset
and size produces on the same buffer (the dispatch's `else` arm calls
`GetRawValue` just like the `raw` arm). -/
theorem unknown_kind_decodes_as_raw (buf : List Nat) (sd : SensorDef)
    (h : sd.type ∉ ["raw", "temperature", "bit", "time"]) :
    decodeSensor buf sd = decodeSensor buf { sd with type := "raw" } := by
  simp only [List.mem_cons, List.not_mem_nil, or_false, not_or] at h
  obtain ⟨h1, h2, h3, h4⟩ := h
  simp [decodeSensor, h1, h2, h3, h4]

/-- Witness for C4 at kind `watts`. -/
theorem unknown_kind_decodes_as_raw_witness :
    decodeSensor [0x10, 0xFF] { type := "watts" }
      = decodeSensor [0x10, 0xFF] { ({ type := "watts" } : SensorDef) with type := "raw" } :=
  unknown_kind_decodes_as_raw [0x10, 0xFF] { type := "watts" } (by decide)

/-- C5 counterexample: for a schema containing a sensor named `device`,
the sensor assignment overwrites the fixed `device` entry in place, so
the Reading does not consist of `device`, `timestamp` and one entry per
sensor. -/
theorem reading_order_counterexample :
    ¬ ((parseVbusPacket [] [("device", { type := "raw" })] "solar" "ts").map Prod.fst
        = "device" :: "timestamp"
            :: ([("device", ({ type := "raw" } : SensorDef))].map Prod.fst)) := by
  decide

/-- C5 amended: for every schema whose sensor names are pairwise distinct
and none of which is named `device` or `timestamp`, the Reading is the
ordered dict `device`, `timestamp`, then one entry per schema sensor in
schema order, keyed by the sensor's name and holding its decoded
value. -/
theorem reading_order (buf : List Nat) (schema : Schema) (device ts : String)
    (hnodup : (schema.map Prod.fst).Nodup)
    (hdev : "device" ∉ schema.map Prod.fst)
    (hts : "timestamp" ∉ schema.map Prod.fst) :
    parseVbusPacket buf schema device ts
      = ("device", .vstr device) :: ("timestamp", .vstr ts)
          :: schema.map (fun p => (p.1, decodeSensor buf p.2)) := by
  unfold parseVbusPacket
  rw [parse_base]
  rw [foldl_dictSet_fresh buf schema _ ?_ hnodup]
  · simp
  · intro q hq p hp
    have hq1 : q.1 ∈ schema.map Prod.fst := List.mem_map_of_mem Prod.fst hq
    rcases (by simpa using hp :
        p = ("device", Value.vstr device) ∨ p = ("timestamp", Value.vstr ts)) with h | h <;>
      subst h
    · intro he
      apply hdev
      have he' : "device" = q.1 := he
      rwa [← he'] at hq1
    · intro he
      apply hts
      have he' : "timestamp" = q.1 := he
      rwa [← he'] at hq1

/-- Witness for C5 (amended) on a two-sensor schema. -/
theorem reading_order_witness :
    parseVbusPacket [0x10, 0xFF] [("a", { type := "raw" }), ("b", { type := "bit" })]
        "solar" "ts"
      = [("device", .vstr "solar"), ("timestamp", .vstr "ts"),
         ("a", decodeSensor [0x10, 0xFF] { type := "raw" }),
         ("b", decodeSensor [0x10, 0xFF] { type := "bit" })] := by
  have h := reading_order [0x10, 0xFF] [("a", { type := "raw" }), ("b", { type := "bit" })]
    "solar" "ts" (by decide) (by decide) (by decide)
  exact h.trans (by simp)

/-- C6: the active schema produced by `parse_config` contains exactly the
enabled sensors (every disabled sensor is removed), and every key of a
Reading decoded with the active schema is `device`, `timestamp`, or the
name of an active sensor, so disabled sensors never appear in a Reading
nor in what the publishers render from it. -/
theorem disabled_sensors_filtered (raw : Schema) :
    (∀ p ∈ parse_config_sensors raw, p.2.enabled = true) ∧
    (∀ p ∈ raw, p.2.enabled = false → p ∉ parse_config_sensors raw) ∧
    (∀ p ∈ raw, p.2.enabled = true → p ∈ parse_config_sensors raw) ∧
    (∀ buf device ts k,
      k ∈ (parseVbusPacket buf (parse_config_sensors raw) device ts).map Prod.fst →
      k = "device" ∨ k = "timestamp" ∨ k ∈ (parse_config_sensors raw).map Prod.fst) := by
  refine ⟨?_, ?_, ?_, ?_⟩
  · intro p hp
    exact (List.mem_filter.mp hp).2
  · intro p _ hdis hmem
    rw [(List.mem_filter.mp hmem).2] at hdis
    cases hdis
  · intro p hp hen
    exact List.mem_filter.mpr ⟨hp, hen⟩
  · intro buf device ts k hk
    exact parseVbusPacket_keys buf (parse_config_sensors raw) device ts k hk

/-- Witness for C6 on a schema with one enabled and one disabled
sensor. -/
theorem disabled_sensors_filtered_witness :
    ("b", ({ type := "raw", enabled := false } : SensorDef))
      ∉ parse_config_sensors
          [("a", { type := "raw", enabled := true }),
           ("b", { type := "raw", enabled := false })] :=
  (disabled_sensors_filtered
      [("a", { type := "raw", enabled := true }),
       ("b", { type := "raw", enabled := false })]).2.1
    ("b", { type := "raw", enabled := false }) (by decide) (by decide)

/-- C9: two decodes of the same buffer with the same schema and device
name, differing only in the timestamp they stamp, produce Readings with
identical key sequences and identical values at every key other than
`timestamp`. -/
theorem decode_deterministic (buf : List Nat) (schema : Schema) (device t1 t2 : String) :
    (parseVbusPacket buf schema device t1).map Prod.fst
      = (parseVbusPacket buf schema device t2).map Prod.fst ∧
    ∀ k, k ≠ "timestamp" →
      dictGet (parseVbusPacket buf schema device t1) k
        = dictGet (parseVbusPacket buf schema device t2) k := by
  have hmask : maskTs (parseVbusPacket buf schema device t1)
      = maskTs (parseVbusPacket buf schema device t2) := by
    unfold parseVbusPacket
    apply maskTs_foldl
    rw [parse_base, parse_base]
    simp [maskTs]
  constructor
  · rw [← maskTs_keys (parseVbusPacket buf schema device t1),
      ← maskTs_keys (parseVbusPacket buf schema device t2), hmask]
  · intro k hk
    rw [← maskTs_get (parseVbusPacket buf schema device t1) k hk,
      ← maskTs_get (parseVbusPacket buf schema device t2) k hk, hmask]

/-- Witness for C9: the sensor value is the same for two different
timestamps. -/
theorem decode_deterministic_witness :
    dictGet (parseVbusPacket [0x10] [("a", { type := "raw" })] "solar" "t1") "a"
      = dictGet (parseVbusPacket [0x10] [("a", { type := "raw" })] "solar" "t2") "a" :=
  (decode_deterministic [0x10] [("a", { type := "raw" })] "solar" "t1" "t2").2 "a"
    (by decide)

/-! ## Claims about the publishers -/

/-- The response loop, started from an already-accumulated response,
appends the blocks of the remaining entries, provided every non-fixed
entry is found in the schema. -/
lemma promFold_append (schema : Schema) (r : PyDict) :
    ∀ s : String,
      (∀ p ∈ r, p.1 = "device" ∨ p.1 = "timestamp"
        ∨ (schema.find? (fun q => q.1 == p.1)).isSome) →
      r.foldl (prometheusStep schema) (some s)
        = some (s ++ (r.filterMap (metricBlock schema)).foldr (fun a b => a ++ b) "") := by
  induction r with
  | nil =>
    intro s _
    simp [String.append_empty]
  | cons p rest ih =>
    intro s h
    have hp := h p (List.mem_cons_self p rest)
    simp only [List.foldl_cons, List.filterMap_cons]
    by_cases hfix : p.1 = "device" ∨ p.1 = "timestamp"
    · have hstep : prometheusStep schema (some s) p = some s := by
        simp [prometheusStep, hfix]
      have hblock : metricBlock schema p = none := by
        simp [metricBlock, hfix]
      rw [hstep, hblock]
      exact ih s (fun q hq => h q (List.mem_cons_of_mem p hq))
    · have hfind : (schema.find? (fun q => q.1 == p.1)).isSome := by
        rcases hp with h1 | h1 | h1
        · exact absurd (Or.inl h1) hfix
        · exact absurd (Or.inr h1) hfix
        · exact h1
      obtain ⟨q, hq⟩ := Option.isSome_iff_exists.mp hfind
      have hstep : prometheusStep schema (some s) p
          = some (s ++ "# HELP " ++ p.1 ++ " " ++ q.2.description ++ "\n" ++
            "# TYPE " ++ p.1 ++ " " ++ q.2.metrics ++ "\n" ++
            p.1 ++ " " ++ pyStr p.2 ++ "\n") := by
        simp [prometheusStep, hfix, hq]
      have hblock : metricBlock schema p
          = some ("# HELP " ++ p.1 ++ " " ++ q.2.description ++ "\n" ++
            "# TYPE " ++ p.1 ++ " " ++ q.2.metrics ++ "\n" ++
            p.1 ++ " " ++ pyStr p.2 ++ "\n") := by
        simp [metricBlock, hfix, hq]
      rw [hstep, hblock]
      rw [ih _ (fun q' hq' => h q' (List.mem_cons_of_mem p hq'))]
      simp [String.append_assoc]

/-- C8: for every datagram whose non-fixed entries all appear in the
schema, the metrics publisher's output is exactly the concatenation, in
Reading order, of one three-line block per entry other than `device` and
`timestamp`: `# HELP name description`, `# TYPE name metricKind`,
`name value`. -/
theorem metrics_three_line_blocks (schema : Schema) (r : PyDict)
    (h : ∀ p ∈ r, p.1 = "device" ∨ p.1 = "timestamp"
      ∨ (schema.find? (fun q => q.1 == p.1)).isSome) :
    prometheusBody schema r
      = some ((r.filterMap (metricBlock schema)).foldr (fun a b => a ++ b) "") := by
  unfold prometheusBody
  rw [promFold_append schema r "" h]
  simp

/-- Witness for C8: the spec's `temp1` example, valued 45.3, renders as
exactly the three expected lines. -/
theorem metrics_three_line_blocks_witness :
    prometheusBody
        [("temp1", { description := "Collector Temperature", metrics := "gauge" })]
        [("device", .vstr "solar"), ("timestamp", .vstr "ts"),
         ("temp1", .vrat (mkRat 453 10))]
      = some "# HELP temp1 Collector Temperature\n# TYPE temp1 gauge\ntemp1 45.3\n" := by
  have h := metrics_three_line_blocks
    [("temp1", { description := "Collector Temperature", metrics := "gauge" })]
    [("device", .vstr "solar"), ("timestamp", .vstr "ts"),
     ("temp1", .vrat (mkRat 453 10))] (by decide)
  exact h.trans (by decide)

/-- C7: with an empty Latest-Reading Store both handlers return the
503 service-unavailable outcome with no body; with a decoded Reading
present both return a 200 outcome with the rendered body. -/
theorem handlers_outcomes (schema : Schema) (buf : List Nat) (device ts : String) :
    json_handler none = .serviceUnavailable ∧
    prometheus_handler schema none = .serviceUnavailable ∧
    json_handler (some (parseVbusPacket buf schema device ts))
      = .ok (jsonBody (parseVbusPacket buf schema device ts)) ∧
    ∃ body, prometheus_handler schema (some (parseVbusPacket buf schema device ts))
      = .ok body := by
  refine ⟨rfl, rfl, rfl, ?_⟩
  have h : ∀ p ∈ parseVbusPacket buf schema device ts,
      p.1 = "device" ∨ p.1 = "timestamp"
        ∨ (schema.find? (fun q => q.1 == p.1)).isSome := by
    intro p hp
    rcases parseVbusPacket_keys buf schema device ts p.1
        (List.mem_map_of_mem Prod.fst hp) with h1 | h1 | h1
    · exact Or.inl h1
    · exact Or.inr (Or.inl h1)
    · refine Or.inr (Or.inr ?_)
      rw [List.find?_isSome]
      obtain ⟨q, hq, he⟩ := List.mem_map.mp h1
      exact ⟨q, hq, by simp [he]⟩
  have hbody := promFold_append schema (parseVbusPacket buf schema device ts) "" h
  have hbody' : prometheusBody schema (parseVbusPacket buf schema device ts)
      = some ("" ++ (List.filterMap (metricBlock schema)
          (parseVbusPacket buf schema device ts)).foldr (fun a b => a ++ b) "") := hbody
  refine ⟨"" ++ (List.filterMap (metricBlock schema)
      (parseVbusPacket buf schema device ts)).foldr (fun a b => a ++ b) "", ?_⟩
  simp only [prometheus_handler, hbody']

example : data_received_step [1, 2, 3, 4, 0xAA] = .crash := by decide
example : data_received_step [1, 2, 0xAA] = .discarded := by decide
example : data_received_step [0, 0, 0, 0, 0x10, 9, 0xAA]
    = .decoded [0xAA, 0, 0, 0, 0, 0x10, 9] := by decide
example : GetRawValue [0xFF, 0xFF] 0 2 = -1 := by decide
example : GetRawValue [0x10, 0x00] 0 1 = 16 := by decide
example : renderRat (mkRat 453 10) = "45.3" := by decide
example : renderRat (mkRat (-1) 2) = "-0.5" := by decide
example : renderRat (mkRat 45 1) = "45.0" := by decide
